import Mathlib

/-!
Verification development for the openIMIS core mutation-processing module
(`core/schema.py`, `core/tasks.py`, `core/views.py`).

The embedding covers:
* the JSON payload serialization used for `MutationLog.json_content`
  (`json.dumps` / `json.loads` with the default separators), as an
  executable serializer and parser over an inductive JSON value type,
  together with a round-trip theorem;
* `OpenIMISMutation.mutate_and_get_payload` (the mutation coordinator),
  as `submit` over an explicit environment carrying the subscriber
  responses, the handler behaviour and the async-mode flag;
* `openimis_mutation_async` (the task executor), as `runExecutor`;
* `OrderedDjangoFilterConnectionField.connection_resolver` ordering
  handling and `MutationLogGQLType.get_queryset`.

`core/models.py` (the `MutationLog` Django model with its status values
and `mark_as_successful` / `mark_as_failed` methods) is not part of the
provided sources; those parts are modelled from the spec, as indicated on
each definition.
-/

namespace OpenIMISCore

/-- Modelled from the spec: `core/models.py` is absent from the sources.
The spec (section 3) defines `status` as one of
RECEIVED, PENDING_EXECUTION, SUCCESS, FAILED. -/
inductive MutationStatus where
  | RECEIVED
  | PENDING_EXECUTION
  | SUCCESS
  | FAILED
deriving DecidableEq, Repr

/-- An acting principal (`info.context.user`): id, optional language,
and the flags consulted by `MutationLogGQLType.get_queryset`. -/
structure User where
  id : Nat
  language : Option (List Char) := none
  is_anonymous : Bool := false
  is_superuser : Bool := false
deriving DecidableEq, Repr

/-- JSON values, the structured data passed as mutation input parameters
(`**data`) and serialized into `MutationLog.json_content` by
`json.dumps(data, cls=OpenIMISJSONEncoder)`. Strings are lists of
characters to ease structural reasoning. -/
inductive Json where
  | null
  | bool (b : Bool)
  | num (n : Int)
  | str (s : List Char)
  | arr (elems : List Json)
  | obj (fields : List (List Char × Json))

/-- Decimal digits of a natural number, most significant first, as the
characters `json.dumps` emits for a non-negative integer. -/
def natDump (n : Nat) : List Char :=
  if _h : n < 10 then [Nat.digitChar n]
  else natDump (n / 10) ++ [Nat.digitChar (n % 10)]
decreasing_by
  exact Nat.div_lt_self (by omega) (by omega)

/-- Characters emitted by `json.dumps` for an integer. -/
def intDump (n : Int) : List Char :=
  if n < 0 then '-' :: natDump n.natAbs else natDump n.toNat

/-- JSON string escaping of a single character: `json.dumps` escapes the
quote and the backslash. -/
def escapeChar (c : Char) : List Char :=
  if c = '"' ∨ c = '\\' then ['\\', c] else [c]

/-- JSON string escaping, character by character. -/
def escape (s : List Char) : List Char := s.flatMap escapeChar

mutual

/-- The characters produced by `json.dumps` (default separators, i.e.
a comma-space between items and a colon-space after keys). -/
def dumps : Json → List Char
  | .null => ("null").toList
  | .bool true => ("true").toList
  | .bool false => ("false").toList
  | .num n => intDump n
  | .str s => '"' :: (escape s ++ ['"'])
  | .arr es => '[' :: dumpsElems es
  | .obj fs => '{' :: dumpsFields fs

/-- Array body including the closing bracket. -/
def dumpsElems : List Json → List Char
  | [] => [']']
  | e :: es => dumps e ++ dumpsTail es

/-- Array continuation: separator plus next element, then the rest. -/
def dumpsTail : List Json → List Char
  | [] => [']']
  | e :: es => ',' :: ' ' :: (dumps e ++ dumpsTail es)

/-- Object body including the closing brace. -/
def dumpsFields : List (List Char × Json) → List Char
  | [] => ['}']
  | (k, v) :: fs => '"' :: (escape k ++ '"' :: ':' :: ' ' :: (dumps v ++ dumpsFieldsTail fs))

/-- Object continuation: separator plus next key-value pair, then the rest. -/
def dumpsFieldsTail : List (List Char × Json) → List Char
  | [] => ['}']
  | (k, v) :: fs =>
      ',' :: ' ' :: '"' :: (escape k ++ '"' :: ':' :: ' ' :: (dumps v ++ dumpsFieldsTail fs))

end

/-- Greedy run of decimal digits, folded into a natural number, as a
JSON number lexer does. Fails when no digit is present. -/
def parseNat (input : List Char) : Option (Nat × List Char) :=
  let ds := input.takeWhile Char.isDigit
  if ds.isEmpty then none
  else some (ds.foldl (fun acc c => 10 * acc + (c.toNat - 48)) 0,
             input.dropWhile Char.isDigit)

/-- Body of a JSON string literal after the opening quote: unescape up to
the closing quote, returning the string contents and the remainder. -/
def parseStrBody : List Char → Option (List Char × List Char)
  | [] => none
  | c :: cs =>
    if c = '"' then some ([], cs)
    else if c = '\\' then
      match cs with
      | [] => none
      | e :: es => (parseStrBody es).map fun p => (e :: p.1, p.2)
    else (parseStrBody cs).map fun p => (c :: p.1, p.2)

mutual

/-- Recursive-descent parser for the output of `dumps`, i.e. the grammar
`json.loads` reads back from `MutationLog.json_content`. The `fuel`
argument bounds the recursion depth. -/
def parseVal : Nat → List Char → Option (Json × List Char)
  | 0, _ => none
  | _ + 1, [] => none
  | fuel + 1, c :: cs =>
    if c = 'n' then
      match cs with
      | 'u' :: 'l' :: 'l' :: rest => some (.null, rest)
      | _ => none
    else if c = 't' then
      match cs with
      | 'r' :: 'u' :: 'e' :: rest => some (.bool true, rest)
      | _ => none
    else if c = 'f' then
      match cs with
      | 'a' :: 'l' :: 's' :: 'e' :: rest => some (.bool false, rest)
      | _ => none
    else if c = '"' then
      (parseStrBody cs).map fun p => (.str p.1, p.2)
    else if c = '[' then
      (parseElems fuel cs).map fun p => (.arr p.1, p.2)
    else if c = '{' then
      (parseFields fuel cs).map fun p => (.obj p.1, p.2)
    else if c = '-' then
      (parseNat cs).map fun p => (.num (-(p.1 : Int)), p.2)
    else if c.isDigit then
      (parseNat (c :: cs)).map fun p => (.num (p.1 : Int), p.2)
    else none

/-- Array body after the opening bracket: empty array or first element
followed by the continuation. -/
def parseElems : Nat → List Char → Option (List Json × List Char)
  | 0, _ => none
  | _ + 1, [] => none
  | fuel + 1, c :: cs =>
    if c = ']' then some ([], cs)
    else
      match parseVal fuel (c :: cs) with
      | none => none
      | some (v, r) =>
        match parseTail fuel r with
        | none => none
        | some (vs, r') => some (v :: vs, r')

/-- Array continuation: closing bracket, or comma-space and the next
element. -/
def parseTail : Nat → List Char → Option (List Json × List Char)
  | 0, _ => none
  | _ + 1, [] => none
  | fuel + 1, c :: cs =>
    if c = ']' then some ([], cs)
    else if c = ',' then
      match cs with
      | ' ' :: cs' =>
        match parseVal fuel cs' with
        | none => none
        | some (v, r) =>
          match parseTail fuel r with
          | none => none
          | some (vs, r') => some (v :: vs, r')
      | _ => none
    else none

/-- Object body after the opening brace: empty object or first key-value
pair followed by the continuation. -/
def parseFields : Nat → List Char → Option (List (List Char × Json) × List Char)
  | 0, _ => none
  | _ + 1, [] => none
  | fuel + 1, c :: cs =>
    if c = '}' then some ([], cs)
    else if c = '"' then
      match parseStrBody cs with
      | none => none
      | some (k, r) =>
        match r with
        | ':' :: ' ' :: r' =>
          match parseVal fuel r' with
          | none => none
          | some (v, r'') =>
            match parseFieldsTail fuel r'' with
            | none => none
            | some (kvs, r3) => some ((k, v) :: kvs, r3)
        | _ => none
    else none

/-- Object continuation: closing brace, or comma-space and the next
key-value pair. -/
def parseFieldsTail : Nat → List Char → Option (List (List Char × Json) × List Char)
  | 0, _ => none
  | _ + 1, [] => none
  | fuel + 1, c :: cs =>
    if c = '}' then some ([], cs)
    else if c = ',' then
      match cs with
      | ' ' :: '"' :: cs' =>
        match parseStrBody cs' with
        | none => none
        | some (k, r) =>
          match r with
          | ':' :: ' ' :: r' =>
            match parseVal fuel r' with
            | none => none
            | some (v, r'') =>
              match parseFieldsTail fuel r'' with
              | none => none
              | some (kvs, r3) => some ((k, v) :: kvs, r3)
          | _ => none
      | _ => none
    else none

end

mutual

/-- Fuel sufficient to parse back the output of `dumps`; see
`jsize_le_dumps_len`. -/
def jsize : Json → Nat
  | .arr es => 1 + elemsSize es
  | .obj fs => 1 + fieldsSize fs
  | _ => 1

/-- Fuel sufficient for `parseElems` and `parseTail` on a dumped list. -/
def elemsSize : List Json → Nat
  | [] => 1
  | e :: es => 1 + jsize e + elemsSize es

/-- Fuel sufficient for `parseFields` and `parseFieldsTail` on dumped
object fields. -/
def fieldsSize : List (List Char × Json) → Nat
  | [] => 1
  | (_, v) :: fs => 1 + jsize v + fieldsSize fs

end

/-- The model of `json.loads` applied to a whole document: parse with
ample fuel and require that the input is consumed entirely. -/
def jsonLoads (s : List Char) : Option Json :=
  match parseVal (2 * s.length + 1) s with
  | some (v, []) => some v
  | _ => none

/-- Modelled from the spec: the `MutationLog` row created by
`MutationLog.objects.create(...)` in `mutate_and_get_payload`
(`core/models.py` is absent from the sources; fields follow the spec's
MutationRecord data model and the `create` call site in
`core/schema.py`). -/
structure MutationLogRec where
  id : Nat
  json_content : List Char
  user : Option User
  client_mutation_id : Option Json
  client_mutation_label : Option Json
  status : MutationStatus
  error : Option (List Char)

/-- Modelled from the spec: `MutationLog.mark_as_failed(detail)` sets the
record to the FAILED status and stores the error detail
(spec section 3: error detail populated exactly for FAILED records). -/
def mark_as_failed (r : MutationLogRec) (detail : List Char) : MutationLogRec :=
  { r with status := .FAILED, error := some detail }

/-- Modelled from the spec: `MutationLog.mark_as_successful()` sets the
record to the SUCCESS status; per the spec invariant the error detail is
populated only on FAILED records, so it is cleared here. -/
def mark_as_successful (r : MutationLogRec) : MutationLogRec :=
  { r with status := .SUCCESS, error := none }

/-- Dictionary lookup `data.get(key)` on a JSON object. -/
def jGet (j : Json) (key : List Char) : Option Json :=
  match j with
  | .obj fs => (fs.find? fun kv => kv.1 == key).map Prod.snd
  | _ => none

/-- A single subscriber's behaviour for one `send`: either it raises
(`Except.error` with the exception text) or it returns its list of
validation errors. Django's `Signal.send` propagates a receiver's
exception and otherwise collects every receiver's response in
registration order. -/
abbrev SubResponse := Except (List Char) (List Json)

/-- Sequential collection of subscriber responses, mirroring
`signal_mutation.send` followed by `signal_mutation_module[...].send`:
an exception from any receiver aborts the fan-out, otherwise all
responses are collected in order. -/
def collectResponses : List SubResponse → Except (List Char) (List (List Json))
  | [] => .ok []
  | r :: rs =>
    match r with
    | .error e => .error e
    | .ok errs =>
      match collectResponses rs with
      | .error e => .error e
      | .ok rest => .ok (errs :: rest)

/-- The message `openimis_mutation_async.delay(mutation_log.id,
cls._mutation_module, cls._mutation_class)` puts on the task queue. -/
structure TaskMsg where
  mutation_id : Nat
  module : List Char
  class_name : List Char

/-- Environment of one call to `OpenIMISMutation.mutate_and_get_payload`:
the mutation input `data`, the acting principal, the process-wide
`core.async_mutations` flag, the registered subscribers' responses for
this event (global scope then module scope), the behaviour of the
subclass's `async_mutate`, and the possible faults of the two external
effects that the `try` block does not guard (`MutationLog.objects.create`)
or guards (`delay`). -/
structure SubmitEnv where
  newId : Nat
  data : Json
  user : Option User
  mutation_module : List Char
  mutation_class : List Char
  async_mutations : Bool
  createFault : Option (List Char) := none
  globalResponses : List SubResponse := []
  moduleResponses : List SubResponse := []
  enqueueFault : Option (List Char) := none
  async_mutate : Option User → Json → Except (List Char) (List Json)

/-- The record as created by `MutationLog.objects.create` at the top of
`mutate_and_get_payload`: serialized payload, submitter id, correlation
id and label extracted from `data`, initial status. -/
def createLog (env : SubmitEnv) : MutationLogRec :=
  { id := env.newId
    json_content := dumps env.data
    user := env.user
    client_mutation_id := jGet env.data (("client_mutation_id").toList)
    client_mutation_label := jGet env.data (("client_mutation_label").toList)
    status := .RECEIVED
    error := none }

/-- Observable outcome of `mutate_and_get_payload`: the final state of
the mutation log record, the task messages enqueued, the arguments
`async_mutate` was invoked with inline (if it was), and the
`internal_id` returned to the caller. -/
structure SubmitOutcome where
  record : MutationLogRec
  enqueued : List TaskMsg
  handlerArgs : Option (Option User × Json)
  internal_id : Nat

/-- Shallow embedding of `OpenIMISMutation.mutate_and_get_payload`
(`core/schema.py`): create the log (a persistence fault propagates),
run the signal fan-out, on validation errors mark failed and return,
otherwise either enqueue the task and fall through to
`mark_as_successful` (async mode, `error_messages = None`) or invoke
`async_mutate` inline and mark per its result; any exception inside the
`try` marks the record failed; the record id is returned on every
non-propagating path. -/
def submit (env : SubmitEnv) : Except (List Char) SubmitOutcome :=
  match env.createFault with
  | some f => .error f
  | none =>
    let log := createLog env
    match collectResponses (env.globalResponses ++ env.moduleResponses) with
    | .error exc =>
      .ok { record := mark_as_failed log exc, enqueued := [],
            handlerArgs := none, internal_id := log.id }
    | .ok responses =>
      let errors := responses.flatten
      if errors.isEmpty then
        if env.async_mutations then
          match env.enqueueFault with
          | some f =>
            .ok { record := mark_as_failed log f, enqueued := [],
                  handlerArgs := none, internal_id := log.id }
          | none =>
            .ok { record := mark_as_successful log,
                  enqueued := [⟨log.id, env.mutation_module, env.mutation_class⟩],
                  handlerArgs := none, internal_id := log.id }
        else
          match env.async_mutate env.user env.data with
          | .error exc =>
            .ok { record := mark_as_failed log exc, enqueued := [],
                  handlerArgs := some (env.user, env.data), internal_id := log.id }
          | .ok msgs =>
            if msgs.isEmpty then
              .ok { record := mark_as_successful log, enqueued := [],
                    handlerArgs := some (env.user, env.data), internal_id := log.id }
            else
              .ok { record := mark_as_failed log (dumps (.arr msgs)), enqueued := [],
                    handlerArgs := some (env.user, env.data), internal_id := log.id }
      else
        .ok { record := mark_as_failed log (dumps (.arr errors)), enqueued := [],
              handlerArgs := none, internal_id := log.id }

/-- Environment of one `openimis_mutation_async` run: the record store
(`MutationLog.objects.get`) and the handler resolution
(`getattr(__import__(f"{module}.schema").schema, class_name)`), which
either raises or yields the resolved class's `async_mutate`. -/
structure ExecEnv where
  db : Nat → Option MutationLogRec
  resolve : List Char → List Char →
    Except (List Char) (Option User → Json → Except (List Char) (List Json))

/-- Observable outcome of `openimis_mutation_async`: the final state of
the record (none when it was never loaded), the arguments `async_mutate`
was invoked with (if it was), and the return "OK" or the re-raised
exception. -/
structure ExecOutcome where
  record : Option MutationLogRec
  handlerArgs : Option (Option User × Json)
  result : Except (List Char) (List Char)

/-- Exception text for `MutationLog.objects.get` on a missing id. -/
def doesNotExistExc : List Char := ("MutationLog matching query does not exist.").toList

/-- Exception text for a `json.loads` failure on the stored payload. -/
def jsonDecodeExc : List Char := ("json.decoder.JSONDecodeError").toList

/-- Shallow embedding of `openimis_mutation_async` (`core/tasks.py`):
load the record (absent: nothing loaded, the exception is re-raised),
resolve the mutation class (a fault marks the record failed and is
re-raised), decode the stored payload and call `async_mutate` with the
record's user and the decoded data; a truthy result marks the record
failed, otherwise it is marked successful and "OK" is returned; any
exception after the record was loaded marks it failed and is re-raised. -/
def runExecutor (env : ExecEnv) (msg : TaskMsg) : ExecOutcome :=
  match env.db msg.mutation_id with
  | none => { record := none, handlerArgs := none, result := .error doesNotExistExc }
  | some mutation =>
    match env.resolve msg.module msg.class_name with
    | .error exc =>
      { record := some (mark_as_failed mutation exc), handlerArgs := none,
        result := .error exc }
    | .ok handler =>
      match jsonLoads mutation.json_content with
      | none =>
        { record := some (mark_as_failed mutation jsonDecodeExc), handlerArgs := none,
          result := .error jsonDecodeExc }
      | some data =>
        match handler mutation.user data with
        | .error exc =>
          { record := some (mark_as_failed mutation exc),
            handlerArgs := some (mutation.user, data), result := .error exc }
        | .ok res =>
          if res.isEmpty then
            { record := some (mark_as_successful mutation),
              handlerArgs := some (mutation.user, data), result := .ok (("OK").toList) }
          else
            { record := some (mark_as_failed mutation (dumps (.arr res))),
              handlerArgs := some (mutation.user, data), result := .ok (("OK").toList) }

/-- First regex pass of graphene's `to_snake_case`: insert an underscore
between any character and an uppercase letter that is followed by a
lowercase letter. -/
def snakePass1 : List Char → List Char
  | [] => []
  | [c] => [c]
  | c1 :: c2 :: rest =>
    match rest with
    | [] => [c1, c2]
    | c3 :: _ =>
      if c2.isUpper ∧ c3.isLower then c1 :: '_' :: snakePass1 (c2 :: rest)
      else c1 :: snakePass1 (c2 :: rest)

/-- Second regex pass of graphene's `to_snake_case`: insert an underscore
between a lowercase letter or digit and an uppercase letter. -/
def snakePass2 : List Char → List Char
  | [] => []
  | [c] => [c]
  | c1 :: c2 :: rest =>
    if (c1.isLower ∨ c1.isDigit) ∧ c2.isUpper then c1 :: '_' :: snakePass2 (c2 :: rest)
    else c1 :: snakePass2 (c2 :: rest)

/-- graphene's `to_snake_case`: the two underscore-inserting passes
followed by lowercasing. -/
def to_snake_case (s : List Char) : List Char :=
  (snakePass2 (snakePass1 s)).map Char.toLower

/-- An ordering expression handed to `qs.order_by`: either a plain
(snake-cased) field name or the raw SQL expression `RawSQL("NEWID()")`
substituted for the reserved token. -/
inductive OrderExpr where
  | field (name : List Char)
  | rawNewId

/-- The `orderBy` argument as received by `connection_resolver`: a
single string or a list of strings (the code checks
`type(order) is str`). -/
inductive OrderArg where
  | str (s : List Char)
  | list (l : List (List Char))

/-- Translation of one ordering key, as done inside the list
comprehension of `connection_resolver`: the reserved token "?" becomes
the store-native random-ordering expression, anything else is
snake-cased. -/
def orderKey (o : List Char) : OrderExpr :=
  if o = ("?").toList then .rawNewId else .field (to_snake_case o)

/-- Ordering step of `OrderedDjangoFilterConnectionField.connection_resolver`
(`core/schema.py`): `args.get('orderBy', None)` is falsy (absent, empty
string or empty list) leaves the queryset unordered (`none`); a plain
string is translated as a single key; a list is translated key by key. -/
def connectionOrdering : Option OrderArg → Option (List OrderExpr)
  | none => none
  | some (.str s) =>
    if s.isEmpty then none
    else if s = ("?").toList then some [.rawNewId]
    else some [.field (to_snake_case s)]
  | some (.list l) =>
    if l.isEmpty then none
    else some (l.map orderKey)

/-- Shallow embedding of `MutationLogGQLType.get_queryset`
(`core/schema.py`): anonymous users get an empty queryset, superusers the
unrestricted one, and any other authenticated user only the records whose
`user` foreign key equals them. -/
def get_queryset (queryset : List MutationLogRec) (u : User) : List MutationLogRec :=
  if u.is_anonymous then []
  else if u.is_superuser then queryset
  else queryset.filter fun r =>
    match r.user with
    | some ru => ru.id == u.id
    | none => false

/-- Input whose first character cannot be mistaken for the continuation
of a number literal. -/
def noDigitHead : List Char → Prop
  | [] => True
  | c :: _ => c.isDigit = false

theorem digitChar_isDigit {d : Nat} (h : d < 10) : (Nat.digitChar d).isDigit = true := by
  interval_cases d <;> decide

theorem digitChar_toNat {d : Nat} (h : d < 10) : (Nat.digitChar d).toNat = d + 48 := by
  interval_cases d <;> decide

theorem natDump_ne_nil (n : Nat) : natDump n ≠ [] := by
  unfold natDump
  split <;> simp

theorem natDump_digits (n : Nat) : ∀ c ∈ natDump n, c.isDigit = true := by
  induction n using natDump.induct with
  | case1 n h =>
    intro c hc
    unfold natDump at hc
    rw [dif_pos h] at hc
    simp at hc
    subst hc
    exact digitChar_isDigit h
  | case2 n h ih =>
    intro c hc
    unfold natDump at hc
    rw [dif_neg h] at hc
    rcases List.mem_append.mp hc with h1 | h2
    · exact ih c h1
    · simp at h2
      subst h2
      exact digitChar_isDigit (Nat.mod_lt _ (by omega))

theorem takeWhile_append_all {p : Char → Bool} {xs ys : List Char}
    (h : ∀ c ∈ xs, p c = true) :
    (xs ++ ys).takeWhile p = xs ++ ys.takeWhile p := by
  induction xs with
  | nil => simp
  | cons x xs ih =>
    have hx : p x = true := h x (by simp)
    simp only [List.cons_append, List.takeWhile_cons, hx]
    simp [ih fun c hc => h c (by simp [hc])]

theorem dropWhile_append_all {p : Char → Bool} {xs ys : List Char}
    (h : ∀ c ∈ xs, p c = true) :
    (xs ++ ys).dropWhile p = ys.dropWhile p := by
  induction xs with
  | nil => simp
  | cons x xs ih =>
    have hx : p x = true := h x (by simp)
    simp only [List.cons_append, List.dropWhile_cons, hx]
    simp [ih fun c hc => h c (by simp [hc])]

theorem takeWhile_isDigit_noDigitHead {rest : List Char} (h : noDigitHead rest) :
    rest.takeWhile Char.isDigit = [] := by
  cases rest with
  | nil => rfl
  | cons c cs =>
    simp only [noDigitHead] at h
    simp [List.takeWhile_cons, h]

theorem dropWhile_isDigit_noDigitHead {rest : List Char} (h : noDigitHead rest) :
    rest.dropWhile Char.isDigit = rest := by
  cases rest with
  | nil => rfl
  | cons c cs =>
    simp only [noDigitHead] at h
    simp [List.dropWhile_cons, h]

theorem natDump_foldl (n : Nat) :
    (natDump n).foldl (fun acc c => 10 * acc + (c.toNat - 48)) 0 = n := by
  induction n using natDump.induct with
  | case1 n h =>
    unfold natDump
    rw [dif_pos h]
    simp [digitChar_toNat h]
  | case2 n h ih =>
    unfold natDump
    rw [dif_neg h]
    rw [List.foldl_append]
    rw [ih]
    simp [digitChar_toNat (Nat.mod_lt _ (by omega))]
    omega

theorem parseNat_natDump (n : Nat) (rest : List Char) (h : noDigitHead rest) :
    parseNat (natDump n ++ rest) = some (n, rest) := by
  unfold parseNat
  rw [takeWhile_append_all (natDump_digits n), takeWhile_isDigit_noDigitHead h,
      dropWhile_append_all (natDump_digits n), dropWhile_isDigit_noDigitHead h]
  simp [natDump_ne_nil n, natDump_foldl n]

theorem parseStrBody_quote (cs : List Char) : parseStrBody ('"' :: cs) = some ([], cs) := by
  unfold parseStrBody
  rw [if_pos rfl]

theorem parseStrBody_esc (e : Char) (es : List Char) :
    parseStrBody ('\\' :: e :: es) = (parseStrBody es).map fun p => (e :: p.1, p.2) := by
  conv_lhs => unfold parseStrBody
  rw [if_neg (by decide), if_pos rfl]

theorem parseStrBody_other {c : Char} (h1 : c ≠ '"') (h2 : c ≠ '\\') (cs : List Char) :
    parseStrBody (c :: cs) = (parseStrBody cs).map fun p => (c :: p.1, p.2) := by
  conv_lhs => unfold parseStrBody
  rw [if_neg h1, if_neg h2]

theorem parseStrBody_escape (s rest : List Char) :
    parseStrBody (escape s ++ '"' :: rest) = some (s, rest) := by
  induction s with
  | nil => exact parseStrBody_quote rest
  | cons c cs ih =>
    by_cases hc : c = '"' ∨ c = '\\'
    · have h1 : escape (c :: cs) = '\\' :: c :: escape cs := by
        simp [escape, escapeChar, hc]
      rw [h1]
      simp only [List.cons_append]
      rw [parseStrBody_esc, ih]
      rfl
    · have h1 : escape (c :: cs) = c :: escape cs := by
        simp [escape, escapeChar, hc]
      rw [h1]
      simp only [List.cons_append]
      rw [parseStrBody_other (by tauto) (by tauto), ih]
      rfl

theorem isDigit_ne {c : Char} (h : c.isDigit = true) :
    c ≠ 'n' ∧ c ≠ 't' ∧ c ≠ 'f' ∧ c ≠ '"' ∧ c ≠ '[' ∧ c ≠ '{' ∧ c ≠ '-' ∧ c ≠ ']' ∧ c ≠ '}' ∧ c ≠ ',' := by
  refine ⟨?_, ?_, ?_, ?_, ?_, ?_, ?_, ?_, ?_, ?_⟩ <;> exact fun hc => absurd h (by subst hc; decide)

theorem parseVal_null (fuel : Nat) (rest : List Char) :
    parseVal (fuel + 1) ('n' :: 'u' :: 'l' :: 'l' :: rest) = some (.null, rest) := by
  conv_lhs => unfold parseVal
  rw [if_pos rfl]
  rfl

theorem parseVal_true (fuel : Nat) (rest : List Char) :
    parseVal (fuel + 1) ('t' :: 'r' :: 'u' :: 'e' :: rest) = some (.bool true, rest) := by
  conv_lhs => unfold parseVal
  rw [if_neg (by decide), if_pos rfl]
  rfl

theorem parseVal_false (fuel : Nat) (rest : List Char) :
    parseVal (fuel + 1) ('f' :: 'a' :: 'l' :: 's' :: 'e' :: rest) = some (.bool false, rest) := by
  conv_lhs => unfold parseVal
  rw [if_neg (by decide), if_neg (by decide), if_pos rfl]
  rfl

theorem parseVal_quote (fuel : Nat) (cs : List Char) :
    parseVal (fuel + 1) ('"' :: cs) = (parseStrBody cs).map fun p => (.str p.1, p.2) := by
  conv_lhs => unfold parseVal
  rw [if_neg (by decide), if_neg (by decide), if_neg (by decide), if_pos rfl]

theorem parseVal_lbrack (fuel : Nat) (cs : List Char) :
    parseVal (fuel + 1) ('[' :: cs) = (parseElems fuel cs).map fun p => (.arr p.1, p.2) := by
  conv_lhs => unfold parseVal
  rw [if_neg (by decide), if_neg (by decide), if_neg (by decide), if_neg (by decide),
      if_pos rfl]

theorem parseVal_lbrace (fuel : Nat) (cs : List Char) :
    parseVal (fuel + 1) ('{' :: cs) = (parseFields fuel cs).map fun p => (.obj p.1, p.2) := by
  conv_lhs => unfold parseVal
  rw [if_neg (by decide), if_neg (by decide), if_neg (by decide), if_neg (by decide),
      if_neg (by decide), if_pos rfl]

theorem parseVal_minus (fuel : Nat) (cs : List Char) :
    parseVal (fuel + 1) ('-' :: cs) = (parseNat cs).map fun p => (.num (-(p.1 : Int)), p.2) := by
  conv_lhs => unfold parseVal
  rw [if_neg (by decide), if_neg (by decide), if_neg (by decide), if_neg (by decide),
      if_neg (by decide), if_neg (by decide), if_pos rfl]

theorem parseVal_digit {c : Char} (h : c.isDigit = true) (fuel : Nat) (cs : List Char) :
    parseVal (fuel + 1) (c :: cs) = (parseNat (c :: cs)).map fun p => (.num (p.1 : Int), p.2) := by
  obtain ⟨h1, h2, h3, h4, h5, h6, h7, _, _, _⟩ := isDigit_ne h
  conv_lhs => unfold parseVal
  rw [if_neg h1, if_neg h2, if_neg h3, if_neg h4, if_neg h5, if_neg h6, if_neg h7,
      if_pos h]

theorem parseElems_rb (fuel : Nat) (cs : List Char) :
    parseElems (fuel + 1) (']' :: cs) = some ([], cs) := by
  conv_lhs => unfold parseElems
  rw [if_pos rfl]

theorem parseElems_go {c : Char} (h : c ≠ ']') (fuel : Nat) (cs : List Char) :
    parseElems (fuel + 1) (c :: cs) =
      match parseVal fuel (c :: cs) with
      | none => none
      | some (v, r) =>
        match parseTail fuel r with
        | none => none
        | some (vs, r') => some (v :: vs, r') := by
  conv_lhs => unfold parseElems
  rw [if_neg h]

theorem parseTail_rb (fuel : Nat) (cs : List Char) :
    parseTail (fuel + 1) (']' :: cs) = some ([], cs) := by
  conv_lhs => unfold parseTail
  rw [if_pos rfl]

theorem parseTail_comma (fuel : Nat) (cs : List Char) :
    parseTail (fuel + 1) (',' :: ' ' :: cs) =
      match parseVal fuel cs with
      | none => none
      | some (v, r) =>
        match parseTail fuel r with
        | none => none
        | some (vs, r') => some (v :: vs, r') := by
  conv_lhs => unfold parseTail
  rw [if_neg (by decide), if_pos rfl]
  rfl

theorem parseFields_rb (fuel : Nat) (cs : List Char) :
    parseFields (fuel + 1) ('}' :: cs) = some ([], cs) := by
  conv_lhs => unfold parseFields
  rw [if_pos rfl]

theorem parseFields_quote (fuel : Nat) (cs : List Char) :
    parseFields (fuel + 1) ('"' :: cs) =
      match parseStrBody cs with
      | none => none
      | some (k, r) =>
        match r with
        | ':' :: ' ' :: r' =>
          match parseVal fuel r' with
          | none => none
          | some (v, r'') =>
            match parseFieldsTail fuel r'' with
            | none => none
            | some (kvs, r3) => some ((k, v) :: kvs, r3)
        | _ => none := by
  conv_lhs => unfold parseFields
  rw [if_neg (by decide), if_pos rfl]

theorem parseFieldsTail_rb (fuel : Nat) (cs : List Char) :
    parseFieldsTail (fuel + 1) ('}' :: cs) = some ([], cs) := by
  conv_lhs => unfold parseFieldsTail
  rw [if_pos rfl]

theorem parseFieldsTail_comma (fuel : Nat) (cs : List Char) :
    parseFieldsTail (fuel + 1) (',' :: ' ' :: '"' :: cs) =
      match parseStrBody cs with
      | none => none
      | some (k, r) =>
        match r with
        | ':' :: ' ' :: r' =>
          match parseVal fuel r' with
          | none => none
          | some (v, r'') =>
            match parseFieldsTail fuel r'' with
            | none => none
            | some (kvs, r3) => some ((k, v) :: kvs, r3)
        | _ => none := by
  conv_lhs => unfold parseFieldsTail
  rw [if_neg (by decide), if_pos rfl]
  rfl

theorem dumps_head (v : Json) : ∃ c cs, dumps v = c :: cs ∧ c ≠ ']' := by
  cases v with
  | null => exact ⟨'n', _, rfl, by decide⟩
  | bool b => cases b
              · exact ⟨'f', _, rfl, by decide⟩
              · exact ⟨'t', _, rfl, by decide⟩
  | num n =>
    show ∃ c cs, intDump n = c :: cs ∧ c ≠ ']'
    unfold intDump
    by_cases hn : n < 0
    · rw [if_pos hn]
      exact ⟨'-', _, rfl, by decide⟩
    · rw [if_neg hn]
      rcases hd : natDump n.toNat with _ | ⟨c, cs⟩
      · exact absurd hd (natDump_ne_nil _)
      · have hdig : c.isDigit = true := natDump_digits _ c (by rw [hd]; simp)
        exact ⟨c, cs, rfl, (isDigit_ne hdig).2.2.2.2.2.2.2.1⟩
  | str s => exact ⟨'"', _, rfl, by decide⟩
  | arr es => exact ⟨'[', _, rfl, by decide⟩
  | obj fs => exact ⟨'{', _, rfl, by decide⟩

theorem noDigitHead_nil : noDigitHead [] := trivial

theorem noDigitHead_dumpsTail (es : List Json) (rest : List Char) :
    noDigitHead (dumpsTail es ++ rest) := by
  cases es <;> simp [dumpsTail, noDigitHead]

theorem noDigitHead_dumpsFieldsTail (fs : List (List Char × Json)) (rest : List Char) :
    noDigitHead (dumpsFieldsTail fs ++ rest) := by
  cases fs with
  | nil => simp [dumpsFieldsTail, noDigitHead]
  | cons f fs => cases f; simp [dumpsFieldsTail, noDigitHead]

theorem jsize_pos (v : Json) : 1 ≤ jsize v := by
  cases v <;> simp [jsize]

theorem elemsSize_pos (es : List Json) : 1 ≤ elemsSize es := by
  cases es with
  | nil => simp [elemsSize]
  | cons e es => simp [elemsSize]; omega

theorem fieldsSize_pos (fs : List (List Char × Json)) : 1 ≤ fieldsSize fs := by
  cases fs with
  | nil => simp [fieldsSize]
  | cons f fs => cases f; simp [fieldsSize]; omega

theorem roundtripAux (N : Nat) :
    (∀ v, jsize v ≤ N → ∀ fuel rest, jsize v ≤ fuel → noDigitHead rest →
        parseVal fuel (dumps v ++ rest) = some (v, rest))
  ∧ (∀ es, elemsSize es ≤ N → ∀ fuel rest, elemsSize es ≤ fuel →
        parseElems fuel (dumpsElems es ++ rest) = some (es, rest)
      ∧ parseTail fuel (dumpsTail es ++ rest) = some (es, rest))
  ∧ (∀ fs, fieldsSize fs ≤ N → ∀ fuel rest, fieldsSize fs ≤ fuel →
        parseFields fuel (dumpsFields fs ++ rest) = some (fs, rest)
      ∧ parseFieldsTail fuel (dumpsFieldsTail fs ++ rest) = some (fs, rest)) := by
  induction N with
  | zero =>
    refine ⟨fun v hv => ?_, fun es he => ?_, fun fs hf => ?_⟩
    · have := jsize_pos v; omega
    · have := elemsSize_pos es; omega
    · have := fieldsSize_pos fs; omega
  | succ N ih =>
    obtain ⟨ihv, ihe, ihf⟩ := ih
    refine ⟨fun v hv fuel rest hfuel hrest => ?_, fun es he fuel rest hfuel => ?_,
            fun fs hf fuel rest hfuel => ?_⟩
    · -- values
      cases v with
      | null =>
        cases fuel with
        | zero => have := jsize_pos Json.null; omega
        | succ f =>
          simp only [dumps]
          exact parseVal_null f rest
      | bool b =>
        cases fuel with
        | zero => have := jsize_pos (Json.bool b); omega
        | succ f =>
          cases b
          · simp only [dumps]
            exact parseVal_false f rest
          · simp only [dumps]
            exact parseVal_true f rest
      | num n =>
        cases fuel with
        | zero => have := jsize_pos (Json.num n); omega
        | succ f =>
          simp only [dumps, intDump]
          by_cases hn : n < 0
          · rw [if_pos hn]
            simp only [List.cons_append]
            rw [parseVal_minus, parseNat_natDump _ _ hrest]
            have hcast : -((n.natAbs : Nat) : Int) = n := by omega
            show some (Json.num (-((n.natAbs : Nat) : Int)), rest) = some (Json.num n, rest)
            rw [hcast]
          · rw [if_neg hn]
            rcases hd : natDump n.toNat with _ | ⟨c, cs⟩
            · exact absurd hd (natDump_ne_nil _)
            · have hdig : c.isDigit = true := natDump_digits _ c (by rw [hd]; simp)
              have hpn : parseNat (c :: (cs ++ rest)) = some (n.toNat, rest) := by
                rw [← List.cons_append, ← hd]
                exact parseNat_natDump _ _ hrest
              rw [List.cons_append, parseVal_digit hdig, hpn]
              have hcast : ((n.toNat : Nat) : Int) = n := by omega
              show some (Json.num ((n.toNat : Nat) : Int), rest) = some (Json.num n, rest)
              rw [hcast]
      | str s =>
        cases fuel with
        | zero => have := jsize_pos (Json.str s); omega
        | succ f =>
          simp only [dumps, List.cons_append, List.append_assoc, List.singleton_append]
          rw [parseVal_quote, parseStrBody_escape]
          simp
      | arr es =>
        cases fuel with
        | zero => have := jsize_pos (Json.arr es); omega
        | succ f =>
          have hN : elemsSize es ≤ N := by
            have := elemsSize_pos es; simp [jsize] at hv; omega
          have hfu : elemsSize es ≤ f := by simp [jsize] at hfuel; omega
          simp only [dumps, List.cons_append]
          rw [parseVal_lbrack, (ihe es hN f rest hfu).1]
          rfl
      | obj fs =>
        cases fuel with
        | zero => have := jsize_pos (Json.obj fs); omega
        | succ f =>
          have hN : fieldsSize fs ≤ N := by
            have := fieldsSize_pos fs; simp [jsize] at hv; omega
          have hfu : fieldsSize fs ≤ f := by simp [jsize] at hfuel; omega
          simp only [dumps, List.cons_append]
          rw [parseVal_lbrace, (ihf fs hN f rest hfu).1]
          rfl
    · -- array elements
      cases es with
      | nil =>
        cases fuel with
        | zero => have := elemsSize_pos ([] : List Json); omega
        | succ f =>
          constructor
          · simp only [dumpsElems, List.cons_append, List.singleton_append]
            exact parseElems_rb f rest
          · simp only [dumpsTail, List.cons_append, List.singleton_append]
            exact parseTail_rb f rest
      | cons e es' =>
        cases fuel with
        | zero => have := elemsSize_pos (e :: es'); omega
        | succ f =>
          have h1 : jsize e ≤ N := by
            have := elemsSize_pos es'; simp [elemsSize] at he; omega
          have h2 : elemsSize es' ≤ N := by
            have := jsize_pos e; simp [elemsSize] at he; omega
          have h3 : jsize e ≤ f := by
            have := elemsSize_pos es'; simp [elemsSize] at hfuel; omega
          have h4 : elemsSize es' ≤ f := by
            have := jsize_pos e; simp [elemsSize] at hfuel; omega
          have hval : parseVal f (dumps e ++ (dumpsTail es' ++ rest))
              = some (e, dumpsTail es' ++ rest) :=
            ihv e h1 f _ h3 (noDigitHead_dumpsTail es' rest)
          have htail : parseTail f (dumpsTail es' ++ rest) = some (es', rest) :=
            (ihe es' h2 f rest h4).2
          obtain ⟨c, cs, hd, hcne⟩ := dumps_head e
          constructor
          · simp only [dumpsElems, List.append_assoc]
            rw [hd, List.cons_append, parseElems_go hcne, ← List.cons_append, ← hd]
            rw [hval]
            simp only []
            rw [htail]
          · simp only [dumpsTail, List.cons_append, List.append_assoc]
            rw [parseTail_comma, hval]
            simp only []
            rw [htail]
    · -- object fields
      cases fs with
      | nil =>
        cases fuel with
        | zero => have := fieldsSize_pos ([] : List (List Char × Json)); omega
        | succ f =>
          constructor
          · simp only [dumpsFields, List.cons_append, List.singleton_append]
            exact parseFields_rb f rest
          · simp only [dumpsFieldsTail, List.cons_append, List.singleton_append]
            exact parseFieldsTail_rb f rest
      | cons kv fs' =>
        obtain ⟨k, v⟩ := kv
        cases fuel with
        | zero => have := fieldsSize_pos ((k, v) :: fs'); omega
        | succ f =>
          have h1 : jsize v ≤ N := by
            have := fieldsSize_pos fs'; simp [fieldsSize] at hf; omega
          have h2 : fieldsSize fs' ≤ N := by
            have := jsize_pos v; simp [fieldsSize] at hf; omega
          have h3 : jsize v ≤ f := by
            have := fieldsSize_pos fs'; simp [fieldsSize] at hfuel; omega
          have h4 : fieldsSize fs' ≤ f := by
            have := jsize_pos v; simp [fieldsSize] at hfuel; omega
          have hval : parseVal f (dumps v ++ (dumpsFieldsTail fs' ++ rest))
              = some (v, dumpsFieldsTail fs' ++ rest) :=
            ihv v h1 f _ h3 (noDigitHead_dumpsFieldsTail fs' rest)
          have htail : parseFieldsTail f (dumpsFieldsTail fs' ++ rest) = some (fs', rest) :=
            (ihf fs' h2 f rest h4).2
          have hkey : parseStrBody
              (escape k ++ '"' :: ':' :: ' ' :: (dumps v ++ (dumpsFieldsTail fs' ++ rest)))
              = some (k, ':' :: ' ' :: (dumps v ++ (dumpsFieldsTail fs' ++ rest))) :=
            parseStrBody_escape k _
          constructor
          · simp only [dumpsFields, List.cons_append, List.append_assoc]
            rw [parseFields_quote]
            rw [hkey]
            simp only []
            rw [hval]
            simp only []
            rw [htail]
          · simp only [dumpsFieldsTail, List.cons_append, List.append_assoc]
            rw [parseFieldsTail_comma]
            rw [hkey]
            simp only []
            rw [hval]
            simp only []
            rw [htail]

theorem intDump_len_pos (n : Int) : 1 ≤ (intDump n).length := by
  unfold intDump
  split
  · simp
  · rcases hd : natDump n.toNat with _ | ⟨c, cs⟩
    · exact absurd hd (natDump_ne_nil _)
    · simp [hd]

theorem jsizeLtAux (N : Nat) :
    (∀ v, jsize v ≤ N → jsize v < 2 * (dumps v).length)
  ∧ (∀ es, elemsSize es ≤ N →
        elemsSize es < 2 * (dumpsElems es).length
      ∧ elemsSize es < 2 * (dumpsTail es).length)
  ∧ (∀ fs, fieldsSize fs ≤ N →
        fieldsSize fs < 2 * (dumpsFields fs).length
      ∧ fieldsSize fs < 2 * (dumpsFieldsTail fs).length) := by
  induction N with
  | zero =>
    refine ⟨fun v hv => ?_, fun es he => ?_, fun fs hf => ?_⟩
    · have := jsize_pos v; omega
    · have := elemsSize_pos es; omega
    · have := fieldsSize_pos fs; omega
  | succ N ih =>
    obtain ⟨ihv, ihe, ihf⟩ := ih
    refine ⟨fun v hv => ?_, fun es he => ?_, fun fs hf => ?_⟩
    · cases v with
      | null => simp [jsize, dumps]
      | bool b => cases b <;> simp [jsize, dumps]
      | num n => have := intDump_len_pos n; simp [jsize, dumps]; omega
      | str s => simp [jsize, dumps]; omega
      | arr es =>
        have hN : elemsSize es ≤ N := by
          have := elemsSize_pos es; simp [jsize] at hv; omega
        have := (ihe es hN).1
        simp [jsize, dumps]
        omega
      | obj fs =>
        have hN : fieldsSize fs ≤ N := by
          have := fieldsSize_pos fs; simp [jsize] at hv; omega
        have := (ihf fs hN).1
        simp [jsize, dumps]
        omega
    · cases es with
      | nil => simp [elemsSize, dumpsElems, dumpsTail]
      | cons e es' =>
        have h1 : jsize e ≤ N := by
          have := elemsSize_pos es'; simp [elemsSize] at he; omega
        have h2 : elemsSize es' ≤ N := by
          have := jsize_pos e; simp [elemsSize] at he; omega
        have hv := ihv e h1
        have ht := (ihe es' h2).2
        constructor <;> simp [elemsSize, dumpsElems, dumpsTail] <;> omega
    · cases fs with
      | nil => simp [fieldsSize, dumpsFields, dumpsFieldsTail]
      | cons kv fs' =>
        obtain ⟨k, v⟩ := kv
        have h1 : jsize v ≤ N := by
          have := fieldsSize_pos fs'; simp [fieldsSize] at hf; omega
        have h2 : fieldsSize fs' ≤ N := by
          have := jsize_pos v; simp [fieldsSize] at hf; omega
        have hv := ihv v h1
        have ht := (ihf fs' h2).2
        constructor <;> simp [fieldsSize, dumpsFields, dumpsFieldsTail] <;> omega

/-- Round-trip theorem for the payload serialization: `json.loads`
recovers exactly the structured data `json.dumps` stored at creation
time. -/
theorem jsonLoads_dumps (v : Json) : jsonLoads (dumps v) = some v := by
  unfold jsonLoads
  have h1 : jsize v < 2 * (dumps v).length := (jsizeLtAux (jsize v)).1 v le_rfl
  have h2 : parseVal (2 * (dumps v).length + 1) (dumps v ++ []) = some (v, []) :=
    (roundtripAux (jsize v)).1 v le_rfl _ [] (by omega) noDigitHead_nil
  rw [List.append_nil] at h2
  rw [h2]

/-- An async-mode submission that passes validation: no subscribers are
registered and no fault occurs. -/
def envC1 : SubmitEnv :=
  { newId := 1
    data := .obj []
    user := none
    mutation_module := ("claim").toList
    mutation_class := ("CreateClaimMutation").toList
    async_mutations := true
    async_mutate := fun _ _ => Except.ok [] }

/-- C1: the claim states that an async-mode submission that passes
validation leaves the record in PENDING_EXECUTION, with only the Task
Executor advancing it to a terminal status. The code enqueues the task
but then falls into the shared `if not error_messages` branch with
`error_messages = None` and calls `mark_as_successful`, so `submit`
returns with the record already in the terminal SUCCESS status. -/
theorem C1_async_submit_marks_success_not_pending :
    ∃ out, submit envC1 = Except.ok out
      ∧ out.enqueued = [⟨1, ("claim").toList, ("CreateClaimMutation").toList⟩]
      ∧ out.record.status = MutationStatus.SUCCESS
      ∧ out.record.status ≠ MutationStatus.PENDING_EXECUTION := by
  exact ⟨_, rfl, rfl, rfl, by decide⟩

/-- An async-mode submission identical to `envC1`, whose deferred
execution later fails in the worker. -/
def envC2 : SubmitEnv :=
  { newId := 1
    data := .obj []
    user := none
    mutation_module := ("claim").toList
    mutation_class := ("CreateClaimMutation").toList
    async_mutations := true
    async_mutate := fun _ _ => Except.ok [Json.str (("network timeout").toList)] }

/-- The record as persisted when `submit envC2` returns. -/
def recC2 : MutationLogRec := mark_as_successful (createLog envC2)

/-- The worker-side environment for the deferred execution of `envC2`:
the store holds the record `submit` left behind, and the resolved
handler returns a non-empty error detail. -/
def execEnvC2 : ExecEnv :=
  { db := fun _ => some recC2
    resolve := fun _ _ =>
      Except.ok fun _ _ => Except.ok [Json.str (("network timeout").toList)] }

/-- C2: the claim states that once a record reaches a terminal status it
never changes again. In async mode the coordinator marks the record
SUCCESS (terminal) at submit time, and the Task Executor afterwards
overwrites that terminal status with FAILED when the handler reports an
error, so a terminal status does revert. -/
theorem C2_terminal_status_overwritten :
    ∃ out, submit envC2 = Except.ok out
      ∧ out.record = recC2
      ∧ out.record.status = MutationStatus.SUCCESS
      ∧ ∃ r', (runExecutor execEnvC2
                 ⟨1, ("claim").toList, ("CreateClaimMutation").toList⟩).record = some r'
          ∧ r'.status = MutationStatus.FAILED := by
  exact ⟨_, rfl, rfl, rfl, _, rfl, rfl⟩

theorem flatten_isEmpty_false {rs : List (List Json)} (r : List Json)
    (hr : r ∈ rs) (hrne : r ≠ []) : rs.flatten.isEmpty = false := by
  induction rs with
  | nil => cases hr
  | cons x xs ih =>
    rcases List.mem_cons.mp hr with h | h
    · subst h
      cases r with
      | nil => exact absurd rfl hrne
      | cons a as => rfl
    · have hx := ih h
      cases x with
      | nil => exact hx
      | cons a as => rfl

theorem collectResponses_map_ok (l : List (List Json)) :
    collectResponses (l.map Except.ok) = Except.ok l := by
  induction l with
  | nil => rfl
  | cons x xs ih => simp [collectResponses, ih]

/-- C3: when the signal fan-out completes and some subscriber returned a
non-empty error list, `mutate_and_get_payload` marks the record FAILED
with the serialized aggregated errors, never invokes `async_mutate`, and
enqueues nothing. -/
theorem C3_validation_failure_blocks_handler (env : SubmitEnv) (rs : List (List Json))
    (hc : env.createFault = none)
    (hok : collectResponses (env.globalResponses ++ env.moduleResponses) = Except.ok rs)
    (hne : ∃ r ∈ rs, r ≠ []) :
    ∃ out, submit env = Except.ok out
      ∧ out.record.status = MutationStatus.FAILED
      ∧ out.record.error = some (dumps (.arr rs.flatten))
      ∧ out.handlerArgs = none
      ∧ out.enqueued = [] := by
  obtain ⟨r, hr, hrne⟩ := hne
  have hflat : rs.flatten.isEmpty = false := flatten_isEmpty_false r hr hrne
  simp only [submit, hc, hok, hflat]
  exact ⟨_, rfl, rfl, rfl, rfl, rfl⟩

/-- A submission with one global subscriber rejecting the mutation and
one module-scoped subscriber accepting it. -/
def envC3 : SubmitEnv :=
  { newId := 2
    data := .obj []
    user := none
    mutation_module := ("claim").toList
    mutation_class := ("CreateClaimMutation").toList
    async_mutations := false
    globalResponses := [Except.ok [Json.str (("insufficient funds").toList)]]
    moduleResponses := [Except.ok []]
    async_mutate := fun _ _ => Except.ok [] }

/-- C3 witness: concrete instance of the validation short-circuit. -/
theorem C3_validation_failure_blocks_handler_witness :
    (envC3.createFault = none
      ∧ collectResponses (envC3.globalResponses ++ envC3.moduleResponses)
          = Except.ok [[Json.str (("insufficient funds").toList)], []]
      ∧ ∃ r ∈ [[Json.str (("insufficient funds").toList)], ([] : List Json)], r ≠ [])
    ∧ ∃ out, submit envC3 = Except.ok out
      ∧ out.record.status = MutationStatus.FAILED
      ∧ out.record.error
          = some (dumps (.arr ([[Json.str (("insufficient funds").toList)], []] : List (List Json)).flatten))
      ∧ out.handlerArgs = none
      ∧ out.enqueued = [] :=
  ⟨⟨rfl, rfl, ⟨[Json.str (("insufficient funds").toList)], by simp, by simp⟩⟩,
   C3_validation_failure_blocks_handler envC3 _ rfl rfl
     ⟨[Json.str (("insufficient funds").toList)], by simp, by simp⟩⟩

/-- C7: the fan-out collects the responses of every global-scope
subscriber followed by every module-scope subscriber, in registration
order, without short-circuiting on a failing one, and the recorded error
detail serializes the complete aggregated error list. -/
theorem C7_fanout_aggregates_both_scopes (env : SubmitEnv) (g m : List (List Json))
    (hc : env.createFault = none)
    (hg : env.globalResponses = g.map Except.ok)
    (hm : env.moduleResponses = m.map Except.ok) :
    collectResponses (env.globalResponses ++ env.moduleResponses) = Except.ok (g ++ m)
    ∧ (∀ r ∈ g ++ m, r ≠ [] →
        ∃ out, submit env = Except.ok out
          ∧ out.record.status = MutationStatus.FAILED
          ∧ out.record.error = some (dumps (.arr (g ++ m).flatten))) := by
  have hcoll : collectResponses (env.globalResponses ++ env.moduleResponses)
      = Except.ok (g ++ m) := by
    rw [hg, hm, ← List.map_append, collectResponses_map_ok]
  refine ⟨hcoll, fun r hr hrne => ?_⟩
  obtain ⟨out, h1, h2, h3, _, _⟩ :=
    C3_validation_failure_blocks_handler env (g ++ m) hc hcoll ⟨r, hr, hrne⟩
  exact ⟨out, h1, h2, h3⟩

/-- A submission where the first global subscriber rejects, a second
global subscriber also rejects, and a module subscriber rejects too:
all three error lists must be aggregated. -/
def envC7 : SubmitEnv :=
  { newId := 3
    data := .obj []
    user := none
    mutation_module := ("claim").toList
    mutation_class := ("CreateClaimMutation").toList
    async_mutations := false
    globalResponses := [Except.ok [Json.str (("err1").toList)],
                        Except.ok [Json.str (("err2").toList)]]
    moduleResponses := [Except.ok [Json.str (("err3").toList)]]
    async_mutate := fun _ _ => Except.ok [] }

/-- C7 witness: with two failing global subscribers and one failing
module subscriber, the aggregate keeps all three errors in order. -/
theorem C7_fanout_aggregates_both_scopes_witness :
    (envC7.createFault = none
      ∧ envC7.globalResponses
          = ([[Json.str (("err1").toList)], [Json.str (("err2").toList)]] : List (List Json)).map Except.ok
      ∧ envC7.moduleResponses
          = ([[Json.str (("err3").toList)]] : List (List Json)).map Except.ok)
    ∧ collectResponses (envC7.globalResponses ++ envC7.moduleResponses)
        = Except.ok ([[Json.str (("err1").toList)], [Json.str (("err2").toList)]]
            ++ [[Json.str (("err3").toList)]])
    ∧ ∃ out, submit envC7 = Except.ok out
        ∧ out.record.status = MutationStatus.FAILED
        ∧ out.record.error
            = some (dumps (.arr (([[Json.str (("err1").toList)], [Json.str (("err2").toList)]]
                ++ [[Json.str (("err3").toList)]] : List (List Json))).flatten)) := by
  have h := C7_fanout_aggregates_both_scopes envC7
    [[Json.str (("err1").toList)], [Json.str (("err2").toList)]]
    [[Json.str (("err3").toList)]] rfl rfl rfl
  exact ⟨⟨rfl, rfl, rfl⟩, h.1, h.2 [Json.str (("err1").toList)] (by simp) (by simp)⟩

/-- C4: a persistence fault propagates out of `mutate_and_get_payload`
uncaught; on every other path a record exists and the returned handle
carries its id; and each fault raised after creation (a subscriber
exception, a failed enqueue, a handler exception) is absorbed into the
FAILED state instead of propagating. -/
theorem C4_record_exists_and_fault_policy (env : SubmitEnv) :
    (∀ f, env.createFault = some f → submit env = Except.error f)
  ∧ (env.createFault = none →
      ∃ out, submit env = Except.ok out
        ∧ out.internal_id = env.newId ∧ out.record.id = env.newId)
  ∧ (∀ e, env.createFault = none →
      collectResponses (env.globalResponses ++ env.moduleResponses) = Except.error e →
      ∃ out, submit env = Except.ok out
        ∧ out.record.status = MutationStatus.FAILED ∧ out.record.error = some e)
  ∧ (∀ f rs, env.createFault = none →
      collectResponses (env.globalResponses ++ env.moduleResponses) = Except.ok rs →
      rs.flatten = [] → env.async_mutations = true → env.enqueueFault = some f →
      ∃ out, submit env = Except.ok out
        ∧ out.record.status = MutationStatus.FAILED ∧ out.record.error = some f)
  ∧ (∀ e rs, env.createFault = none →
      collectResponses (env.globalResponses ++ env.moduleResponses) = Except.ok rs →
      rs.flatten = [] → env.async_mutations = false →
      env.async_mutate env.user env.data = Except.error e →
      ∃ out, submit env = Except.ok out
        ∧ out.record.status = MutationStatus.FAILED ∧ out.record.error = some e) := by
  refine ⟨?_, ?_, ?_, ?_, ?_⟩
  · intro f hf
    simp [submit, hf]
  · intro hc
    rcases hcol : collectResponses (env.globalResponses ++ env.moduleResponses) with e | rs
    · simp only [submit, hc, hcol]
      exact ⟨_, rfl, rfl, rfl⟩
    · cases hflat : rs.flatten.isEmpty with
      | false =>
        simp only [submit, hc, hcol, hflat]
        exact ⟨_, rfl, rfl, rfl⟩
      | true =>
        cases hasync : env.async_mutations with
        | true =>
          rcases hq : env.enqueueFault with _ | f
          · simp only [submit, hc, hcol, hflat, hasync, hq]
            exact ⟨_, rfl, rfl, rfl⟩
          · simp only [submit, hc, hcol, hflat, hasync, hq]
            exact ⟨_, rfl, rfl, rfl⟩
        | false =>
          rcases hmut : env.async_mutate env.user env.data with e | msgs
          · simp only [submit, hc, hcol, hflat, hasync, hmut]
            exact ⟨_, rfl, rfl, rfl⟩
          · cases hme : msgs.isEmpty with
            | true =>
              simp only [submit, hc, hcol, hflat, hasync, hmut, hme]
              exact ⟨_, rfl, rfl, rfl⟩
            | false =>
              simp only [submit, hc, hcol, hflat, hasync, hmut, hme]
              exact ⟨_, rfl, rfl, rfl⟩
  · intro e hc hcol
    simp only [submit, hc, hcol]
    exact ⟨_, rfl, rfl, rfl⟩
  · intro f rs hc hcol hflat hasync hq
    have hie : rs.flatten.isEmpty = true := by rw [hflat]; rfl
    simp only [submit, hc, hcol, hie, hasync, hq]
    exact ⟨_, rfl, rfl, rfl⟩
  · intro e rs hc hcol hflat hasync hmut
    have hie : rs.flatten.isEmpty = true := by rw [hflat]; rfl
    simp only [submit, hc, hcol, hie, hasync, hmut]
    exact ⟨_, rfl, rfl, rfl⟩

/-- A submission whose record persistence fails outright. -/
def envC4a : SubmitEnv :=
  { newId := 4
    data := .obj []
    user := none
    mutation_module := ("claim").toList
    mutation_class := ("CreateClaimMutation").toList
    async_mutations := false
    createFault := some (("database unavailable").toList)
    async_mutate := fun _ _ => Except.ok [] }

/-- A synchronous submission whose handler throws. -/
def envC4b : SubmitEnv :=
  { newId := 4
    data := .obj []
    user := none
    mutation_module := ("claim").toList
    mutation_class := ("CreateClaimMutation").toList
    async_mutations := false
    async_mutate := fun _ _ => Except.error (("handler exploded").toList) }

/-- C4 witness: the persistence fault propagates on `envC4a`; the handler
fault on `envC4b` is absorbed as a FAILED record. -/
theorem C4_record_exists_and_fault_policy_witness :
    (envC4a.createFault = some (("database unavailable").toList)
      ∧ submit envC4a = Except.error (("database unavailable").toList))
    ∧ (envC4b.createFault = none
      ∧ ∃ out, submit envC4b = Except.ok out
          ∧ out.record.status = MutationStatus.FAILED
          ∧ out.record.error = some (("handler exploded").toList)) :=
  ⟨⟨rfl, (C4_record_exists_and_fault_policy envC4a).1 _ rfl⟩,
   ⟨rfl, by
      obtain ⟨out, h1, h2, h3⟩ :=
        (C4_record_exists_and_fault_policy envC4b).2.2.2.2
          (("handler exploded").toList) [] rfl rfl rfl rfl rfl
      exact ⟨out, h1, h2, h3⟩⟩⟩

/-- C5: the executor's behaviour on every path: record absent (nothing
marked, fault re-raised), resolution fault (record FAILED, fault
re-raised), payload decode fault (record FAILED, fault re-raised),
handler exception (record FAILED, same fault re-raised), handler error
result (record FAILED, normal return), handler success (record SUCCESS,
normal return). -/
theorem C5_executor_marking_policy (eenv : ExecEnv) (msg : TaskMsg) :
    (eenv.db msg.mutation_id = none →
        (runExecutor eenv msg).record = none
      ∧ (runExecutor eenv msg).result = Except.error doesNotExistExc)
  ∧ (∀ m e, eenv.db msg.mutation_id = some m →
      eenv.resolve msg.module msg.class_name = Except.error e →
        (runExecutor eenv msg).record = some (mark_as_failed m e)
      ∧ (runExecutor eenv msg).result = Except.error e)
  ∧ (∀ m hl, eenv.db msg.mutation_id = some m →
      eenv.resolve msg.module msg.class_name = Except.ok hl →
      jsonLoads m.json_content = none →
        (runExecutor eenv msg).record = some (mark_as_failed m jsonDecodeExc)
      ∧ (runExecutor eenv msg).result = Except.error jsonDecodeExc)
  ∧ (∀ m hl d e, eenv.db msg.mutation_id = some m →
      eenv.resolve msg.module msg.class_name = Except.ok hl →
      jsonLoads m.json_content = some d →
      hl m.user d = Except.error e →
        (runExecutor eenv msg).record = some (mark_as_failed m e)
      ∧ (runExecutor eenv msg).result = Except.error e)
  ∧ (∀ m hl d, eenv.db msg.mutation_id = some m →
      eenv.resolve msg.module msg.class_name = Except.ok hl →
      jsonLoads m.json_content = some d →
      hl m.user d = Except.ok [] →
        (runExecutor eenv msg).record = some (mark_as_successful m)
      ∧ (runExecutor eenv msg).result = Except.ok (("OK").toList))
  ∧ (∀ m hl d res, eenv.db msg.mutation_id = some m →
      eenv.resolve msg.module msg.class_name = Except.ok hl →
      jsonLoads m.json_content = some d →
      hl m.user d = Except.ok res → res ≠ [] →
        (runExecutor eenv msg).record = some (mark_as_failed m (dumps (.arr res)))
      ∧ (runExecutor eenv msg).result = Except.ok (("OK").toList)) := by
  refine ⟨?_, ?_, ?_, ?_, ?_, ?_⟩
  · intro hdb
    refine ⟨?_, ?_⟩ <;> simp only [runExecutor, hdb]
  · intro m e hdb hres
    refine ⟨?_, ?_⟩ <;> simp only [runExecutor, hdb, hres]
  · intro m hl hdb hres hjson
    refine ⟨?_, ?_⟩ <;> simp only [runExecutor, hdb, hres, hjson]
  · intro m hl d e hdb hres hjson hcall
    refine ⟨?_, ?_⟩ <;> simp only [runExecutor, hdb, hres, hjson, hcall]
  · intro m hl d hdb hres hjson hcall
    refine ⟨?_, ?_⟩ <;> simp [runExecutor, hdb, hres, hjson, hcall]
  · intro m hl d res hdb hres hjson hcall hne
    have hie : res.isEmpty = false := by
      cases res with
      | nil => exact absurd rfl hne
      | cons a as => rfl
    refine ⟨?_, ?_⟩ <;> simp [runExecutor, hdb, hres, hjson, hcall, hie]

/-- A stored record awaiting deferred execution. -/
def recC5 : MutationLogRec :=
  { id := 5
    json_content := dumps (.obj [])
    user := none
    client_mutation_id := none
    client_mutation_label := none
    status := .RECEIVED
    error := none }

/-- A worker environment holding `recC5` under id 5, whose handler
resolves and succeeds. -/
def execEnvC5 : ExecEnv :=
  { db := fun i => if i = 5 then some recC5 else none
    resolve := fun _ _ => Except.ok fun _ _ => Except.ok [] }

/-- C5 witness: the executor marks the stored record successful on a
clean run, and re-raises with nothing marked when the record is absent. -/
theorem C5_executor_marking_policy_witness :
    (execEnvC5.db 5 = some recC5
      ∧ (runExecutor execEnvC5 ⟨5, ("claim").toList, ("CreateClaimMutation").toList⟩).record
          = some (mark_as_successful recC5))
    ∧ (execEnvC5.db 6 = none
      ∧ (runExecutor execEnvC5 ⟨6, ("claim").toList, ("CreateClaimMutation").toList⟩).result
          = Except.error doesNotExistExc) :=
  ⟨⟨rfl,
    ((C5_executor_marking_policy execEnvC5
        ⟨5, ("claim").toList, ("CreateClaimMutation").toList⟩).2.2.2.2.1
      recC5 (fun _ _ => Except.ok []) (.obj []) rfl rfl rfl rfl).1⟩,
   ⟨rfl,
    ((C5_executor_marking_policy execEnvC5
        ⟨6, ("claim").toList, ("CreateClaimMutation").toList⟩).1 rfl).2⟩⟩

/-- C8: at creation the record is RECEIVED with no error detail, and in
every record state left behind by the coordinator (`submit`) or the
executor (`runExecutor`), the error detail is populated exactly when the
status is FAILED. -/
theorem C8_error_detail_iff_failed :
    (∀ env : SubmitEnv,
        (createLog env).error = none ∧ (createLog env).status = MutationStatus.RECEIVED)
  ∧ (∀ env out, submit env = Except.ok out →
      (out.record.error ≠ none ↔ out.record.status = MutationStatus.FAILED))
  ∧ (∀ eenv msg r, (runExecutor eenv msg).record = some r →
      (r.error ≠ none ↔ r.status = MutationStatus.FAILED)) := by
  refine ⟨fun env => ⟨rfl, rfl⟩, fun env out hout => ?_, fun eenv msg r hr => ?_⟩
  · rcases hc : env.createFault with _ | f
    · rcases hcol : collectResponses (env.globalResponses ++ env.moduleResponses) with e | rs
      · simp [submit, hc, hcol, Except.ok.injEq] at hout
        subst hout
        simp [mark_as_failed]
      · cases hflat : rs.flatten.isEmpty with
        | false =>
          simp [submit, hc, hcol, hflat, Except.ok.injEq] at hout
          subst hout
          simp [mark_as_failed]
        | true =>
          cases hasync : env.async_mutations with
          | true =>
            rcases hq : env.enqueueFault with _ | f
            · simp [submit, hc, hcol, hflat, hasync, hq, Except.ok.injEq] at hout
              subst hout
              simp [mark_as_successful]
            · simp [submit, hc, hcol, hflat, hasync, hq, Except.ok.injEq] at hout
              subst hout
              simp [mark_as_failed]
          | false =>
            rcases hmut : env.async_mutate env.user env.data with e | msgs
            · simp [submit, hc, hcol, hflat, hasync, hmut, Except.ok.injEq] at hout
              subst hout
              simp [mark_as_failed]
            · cases hme : msgs.isEmpty with
              | true =>
                simp [submit, hc, hcol, hflat, hasync, hmut, hme, Except.ok.injEq] at hout
                subst hout
                simp [mark_as_successful]
              | false =>
                simp [submit, hc, hcol, hflat, hasync, hmut, hme, Except.ok.injEq] at hout
                subst hout
                simp [mark_as_failed]
    · simp [submit, hc] at hout
  · rcases hdb : eenv.db msg.mutation_id with _ | m
    · simp [runExecutor, hdb] at hr
    · rcases hres : eenv.resolve msg.module msg.class_name with e | hl
      · simp [runExecutor, hdb, hres, Option.some.injEq] at hr
        subst hr
        simp [mark_as_failed]
      · rcases hjson : jsonLoads m.json_content with _ | d
        · simp [runExecutor, hdb, hres, hjson, Option.some.injEq] at hr
          subst hr
          simp [mark_as_failed]
        · rcases hcall : hl m.user d with e | res
          · simp [runExecutor, hdb, hres, hjson, hcall, Option.some.injEq] at hr
            subst hr
            simp [mark_as_failed]
          · cases hie : res.isEmpty with
            | true =>
              simp [runExecutor, hdb, hres, hjson, hcall, hie, Option.some.injEq] at hr
              subst hr
              simp [mark_as_successful]
            | false =>
              simp [runExecutor, hdb, hres, hjson, hcall, hie, Option.some.injEq] at hr
              subst hr
              simp [mark_as_failed]

/-- A synchronous submission whose handler reports a validation error. -/
def envC8 : SubmitEnv :=
  { newId := 8
    data := .obj []
    user := none
    mutation_module := ("claim").toList
    mutation_class := ("CreateClaimMutation").toList
    async_mutations := false
    async_mutate := fun _ _ => Except.ok [Json.str (("bad amount").toList)] }

/-- C8 witness: the invariant instantiated on a freshly created record
and on a concrete FAILED outcome. -/
theorem C8_error_detail_iff_failed_witness :
    ((createLog envC8).error = none ∧ (createLog envC8).status = MutationStatus.RECEIVED)
    ∧ ∃ out, submit envC8 = Except.ok out
        ∧ (out.record.error ≠ none ↔ out.record.status = MutationStatus.FAILED) :=
  ⟨C8_error_detail_iff_failed.1 envC8,
   ⟨_, rfl, C8_error_detail_iff_failed.2.1 envC8 _ rfl⟩⟩

/-- C6: an async submission enqueues exactly one message carrying only
the record id, module name and class name (no payload); the stored
payload decodes back to exactly the submitted data (round-trip); any
executor run that loads this record and resolves a handler invokes the
handler with the record's user and the decoded payload — the same
arguments the synchronous path passes to `async_mutate`. -/
theorem C6_minimal_message_and_payload_roundtrip (env : SubmitEnv) (rs : List (List Json))
    (hc : env.createFault = none)
    (hasync : env.async_mutations = true)
    (hq : env.enqueueFault = none)
    (hok : collectResponses (env.globalResponses ++ env.moduleResponses) = Except.ok rs)
    (hflat : rs.flatten = []) :
    ∃ out, submit env = Except.ok out
      ∧ out.enqueued = [⟨env.newId, env.mutation_module, env.mutation_class⟩]
      ∧ out.record.json_content = dumps env.data
      ∧ jsonLoads out.record.json_content = some env.data
      ∧ (∀ eenv : ExecEnv, ∀ hl,
          eenv.db env.newId = some out.record →
          eenv.resolve env.mutation_module env.mutation_class = Except.ok hl →
          (runExecutor eenv ⟨env.newId, env.mutation_module, env.mutation_class⟩).handlerArgs
            = some (env.user, env.data))
      ∧ (∀ out', submit { env with async_mutations := false } = Except.ok out' →
          out'.handlerArgs = some (env.user, env.data)) := by
  have hie : rs.flatten.isEmpty = true := by rw [hflat]; rfl
  have hjson : jsonLoads (mark_as_successful (createLog env)).json_content = some env.data :=
    jsonLoads_dumps env.data
  have hjson2 : jsonLoads (dumps env.data) = some env.data := jsonLoads_dumps env.data
  refine ⟨{ record := mark_as_successful (createLog env)
            enqueued := [⟨env.newId, env.mutation_module, env.mutation_class⟩]
            handlerArgs := none
            internal_id := env.newId }, ?_, rfl, rfl, hjson, ?_, ?_⟩
  · simp [submit, hc, hok, hie, hasync, hq, createLog]
  · intro eenv hl hdb hres
    rcases hcall : hl env.user env.data with e | res
    · simp [runExecutor, hdb, hres, hjson2, hcall, mark_as_successful, createLog]
    · cases hie2 : res.isEmpty with
      | true => simp [runExecutor, hdb, hres, hjson2, hcall, hie2, mark_as_successful, createLog]
      | false => simp [runExecutor, hdb, hres, hjson2, hcall, hie2, mark_as_successful, createLog]
  · intro out' hout'
    rcases hcall : env.async_mutate env.user env.data with e | msgs
    · simp [submit, hc, hok, hie, hcall] at hout'
      subst hout'
      rfl
    · cases hme : msgs.isEmpty with
      | true =>
        simp [submit, hc, hok, hie, hcall, hme] at hout'
        subst hout'
        rfl
      | false =>
        simp [submit, hc, hok, hie, hcall, hme] at hout'
        subst hout'
        rfl

/-- An async submission with a structured payload and an acting user. -/
def envC6 : SubmitEnv :=
  { newId := 6
    data := .obj [(("amount").toList, Json.num 100)]
    user := some { id := 42 }
    mutation_module := ("claim").toList
    mutation_class := ("CreateClaimMutation").toList
    async_mutations := true
    async_mutate := fun _ _ => Except.ok [] }

/-- C6 witness: concrete instance of the minimal message and the payload
round-trip. -/
theorem C6_minimal_message_and_payload_roundtrip_witness :
    (envC6.createFault = none ∧ envC6.async_mutations = true ∧ envC6.enqueueFault = none
      ∧ collectResponses (envC6.globalResponses ++ envC6.moduleResponses)
          = Except.ok ([] : List (List Json))
      ∧ ([] : List (List Json)).flatten = [])
    ∧ ∃ out, submit envC6 = Except.ok out
        ∧ out.enqueued = [⟨envC6.newId, envC6.mutation_module, envC6.mutation_class⟩]
        ∧ out.record.json_content = dumps envC6.data
        ∧ jsonLoads out.record.json_content = some envC6.data
        ∧ (∀ eenv : ExecEnv, ∀ hl,
            eenv.db envC6.newId = some out.record →
            eenv.resolve envC6.mutation_module envC6.mutation_class = Except.ok hl →
            (runExecutor eenv ⟨envC6.newId, envC6.mutation_module, envC6.mutation_class⟩).handlerArgs
              = some (envC6.user, envC6.data))
        ∧ (∀ out', submit { envC6 with async_mutations := false } = Except.ok out' →
            out'.handlerArgs = some (envC6.user, envC6.data)) :=
  ⟨⟨rfl, rfl, rfl, rfl, rfl⟩,
   C6_minimal_message_and_payload_roundtrip envC6 [] rfl rfl rfl rfl rfl⟩

/-- C9: each ordering key equal to the reserved token "?" is replaced by
the store-native random-ordering expression `RawSQL("NEWID()")`, every
other key is snake-cased and applied as an ordering field, and an absent
`orderBy` argument leaves the queryset unordered by this step. -/
theorem C9_ordering_keys (ks : List (List Char)) (hne : ks ≠ []) :
    connectionOrdering (some (.list ks))
        = some (ks.map fun k =>
            if k = ("?").toList then OrderExpr.rawNewId
            else OrderExpr.field (to_snake_case k))
    ∧ connectionOrdering none = none := by
  constructor
  · have hie : ks.isEmpty = false := by
      cases ks with
      | nil => exact absurd rfl hne
      | cons a as => rfl
    simp [connectionOrdering, hie, orderKey]
  · rfl

/-- C9 witness: the reserved token and a camel-cased key, translated. -/
theorem C9_ordering_keys_witness :
    (([("?").toList, ("requestDateTime").toList] : List (List Char)) ≠ []
      ∧ to_snake_case (("requestDateTime").toList) = ("request_date_time").toList)
    ∧ connectionOrdering (some (.list [("?").toList, ("requestDateTime").toList]))
        = some ([("?").toList, ("requestDateTime").toList].map fun k =>
            if k = ("?").toList then OrderExpr.rawNewId
            else OrderExpr.field (to_snake_case k))
    ∧ connectionOrdering none = none := by
  refine ⟨⟨by decide, by decide⟩, ?_, ?_⟩
  · exact (C9_ordering_keys [("?").toList, ("requestDateTime").toList] (by decide)).1
  · exact (C9_ordering_keys [("?").toList, ("requestDateTime").toList] (by decide)).2

/-- C10: the mutation-log queryset is empty for an anonymous principal,
unrestricted for a superuser, and filtered to the requester's own
records (submitter equals the requester) for any other authenticated
user. -/
theorem C10_queryset_scoping (qs : List MutationLogRec) (u : User) :
    (u.is_anonymous = true → get_queryset qs u = [])
    ∧ (u.is_anonymous = false → u.is_superuser = true → get_queryset qs u = qs)
    ∧ (u.is_anonymous = false → u.is_superuser = false →
        get_queryset qs u = qs.filter (fun r =>
          match r.user with
          | some ru => ru.id == u.id
          | none => false)
        ∧ ∀ r ∈ get_queryset qs u, ∃ ru, r.user = some ru ∧ ru.id = u.id) := by
  refine ⟨fun ha => ?_, fun ha hs => ?_, fun ha hs => ⟨?_, fun r hr => ?_⟩⟩
  · simp [get_queryset, ha]
  · simp [get_queryset, ha, hs]
  · simp [get_queryset, ha, hs]
  · simp only [get_queryset, ha, hs] at hr
    simp at hr
    obtain ⟨_, hprop⟩ := hr
    rcases hu : r.user with _ | ru
    · rw [hu] at hprop
      simp at hprop
    · rw [hu] at hprop
      simp at hprop
      exact ⟨ru, rfl, hprop⟩

/-- Three records submitted by two different users and the system. -/
def qsC10 : List MutationLogRec :=
  [{ id := 1, json_content := [], user := some { id := 7 },
     client_mutation_id := none, client_mutation_label := none,
     status := .SUCCESS, error := none },
   { id := 2, json_content := [], user := some { id := 9 },
     client_mutation_id := none, client_mutation_label := none,
     status := .RECEIVED, error := none },
   { id := 3, json_content := [], user := none,
     client_mutation_id := none, client_mutation_label := none,
     status := .RECEIVED, error := none }]

/-- C10 witness: anonymous sees nothing, a superuser sees everything, a
plain authenticated user sees only their own records. -/
theorem C10_queryset_scoping_witness :
    (get_queryset qsC10 { id := 0, is_anonymous := true } = []
      ∧ ({ id := 0, is_anonymous := true : User }).is_anonymous = true)
    ∧ (get_queryset qsC10 { id := 0, is_superuser := true } = qsC10)
    ∧ get_queryset qsC10 { id := 7 }
        = qsC10.filter (fun r =>
            match r.user with
            | some ru => ru.id == (7 : Nat)
            | none => false) :=
  ⟨⟨(C10_queryset_scoping qsC10 { id := 0, is_anonymous := true }).1 rfl, rfl⟩,
   (C10_queryset_scoping qsC10 { id := 0, is_superuser := true }).2.1 rfl rfl,
   ((C10_queryset_scoping qsC10 { id := 7 }).2.2 rfl rfl).1⟩

end OpenIMISCore
